import Mathlib

/-!
Verification development for a conversational meeting-scheduling assistant.

The definitions below are a shallow embedding of the program's storage
layer (MeetingStore), contact directory (AddressBook) and the dialogue
manager's scheduling / attendee-edit flows (MeetingManager).  Dict-shaped
records become structures; Python None for optional string fields is
modelled as the empty string where the source only ever tests truthiness;
code that can raise (an index error on a token-less contact name) returns
Except.  Date/time parsing mirrors the exact strptime format strings used
by the source ("%H:%M", "%I:%M %p", "%I:%M%p", "%Y-%m-%d",
"%Y-%m-%d %H:%M"), including the digit-count and range behaviour of
CPython's format regexes and calendar validation.  String lowering is
ASCII (the scope of all data considered here).
-/

set_option autoImplicit false

/-- Python whitespace for str.strip / str.split / regex backslash-s (ASCII). -/
def pyIsWS (c : Char) : Bool :=
  c = ' ' || c = '\t' || c = '\n' || c = '\x0d' || c = '\x0b' || c = '\x0c'

/-- Python str.strip modelled on ASCII whitespace. -/
def pyStrip (s : String) : String :=
  ⟨(s.data.dropWhile pyIsWS).reverse.dropWhile pyIsWS |>.reverse⟩

/-- Python str.lower, ASCII scope (structural, so that it computes in
the kernel). -/
def pyLower (s : String) : String :=
  ⟨s.data.map Char.toLower⟩

/-- Python str.split with no argument: split on whitespace runs, no empties. -/
def pySplitWSGo : List Char → List Char → List (List Char)
  | acc, [] => if acc.isEmpty then [] else [acc.reverse]
  | acc, c :: cs =>
    if pyIsWS c then
      (if acc.isEmpty then pySplitWSGo [] cs else acc.reverse :: pySplitWSGo [] cs)
    else
      pySplitWSGo (c :: acc) cs

def pySplitWS (s : String) : List String :=
  (pySplitWSGo [] s.data).map fun l => ⟨l⟩

/-- First whitespace-delimited token, none when the string has no token
(the case where the source's split()[0] raises IndexError). -/
def firstTok (s : String) : Option String :=
  (pySplitWS s).head?

/-- Python str.join on a separator, structurally. -/
def pyJoin (sep : String) : List String -> String
  | [] => ""
  | [a] => a
  | a :: b :: rest => a ++ sep ++ pyJoin sep (b :: rest)

/-- Bool test that the first list is a leading segment of the second. -/
def leadAgreesL : List Char → List Char → Bool
  | [], _ => true
  | _ :: _, [] => false
  | a :: as, b :: bs => a = b && leadAgreesL as bs

/-- Python str.startswith: lead is a leading segment of s. -/
def leadAgrees (lead s : String) : Bool :=
  leadAgreesL lead.data s.data

/-- Python substring containment (the in operator on strings). -/
def strHasL (hay needle : List Char) : Bool :=
  match hay with
  | [] => needle.isEmpty
  | _ :: t => leadAgreesL needle hay || strHasL t needle

def strHas (hay needle : String) : Bool :=
  strHasL hay.data needle.data

/-- Zero-padded two-digit decimal (strftime %d, %I, %M style). -/
def pad2 (n : Nat) : String :=
  if n < 10 then "0" ++ toString n else toString n

/-- Zero-padded four-digit decimal (strftime %Y style). -/
def pad4 (n : Nat) : String :=
  if n < 10 then "000" ++ toString n
  else if n < 100 then "00" ++ toString n
  else if n < 1000 then "0" ++ toString n
  else toString n

/-- Take the maximal leading digit run of a char list; also its value. -/
def digitSpan : List Char → List Char × List Char
  | [] => ([], [])
  | c :: cs =>
    if c.isDigit then
      let (d, r) := digitSpan cs
      (c :: d, r)
    else
      ([], c :: cs)

def digitsVal (l : List Char) : Nat :=
  l.foldl (fun a c => a * 10 + (c.toNat - 48)) 0

/-- Gregorian leap year. -/
def isLeap (y : Nat) : Bool :=
  (y % 4 = 0 && y % 100 ≠ 0) || y % 400 = 0

/-- Days in a month (1..12) of a year. -/
def monthLen (y m : Nat) : Nat :=
  if m = 2 then (if isLeap y then 29 else 28)
  else if m = 4 || m = 6 || m = 9 || m = 11 then 30
  else 31

/-- Days since 1970-01-01 of a civil date (standard civil-from-days inverse). -/
def daysFromCivil (y m d : Nat) : Int :=
  let yi : Int := (y : Int) - (if m ≤ 2 then 1 else 0)
  let era : Int := yi.fdiv 400
  let yoe : Int := yi - era * 400
  let mi : Int := (m : Int)
  let doy : Int := ((153 * (mi + (if m > 2 then -3 else 9)) + 2).fdiv 5) + (d : Int) - 1
  let doe : Int := yoe * 365 + yoe.fdiv 4 - yoe.fdiv 100 + doy
  era * 146097 + doe - 719468

/-- Absolute minute count of a date-time, used to compare datetimes. -/
def minutesOf (y mo d h mi : Nat) : Int :=
  daysFromCivil y mo d * 1440 + (h : Int) * 60 + (mi : Int)

/-- Parse a 1-2 digit field: requires the maximal digit run here to have
length 1 or 2 (matching the backtracking behaviour of CPython strptime
regexes when the field is followed by a non-digit or end). -/
def take2Digits (l : List Char) : Option (Nat × List Char) :=
  let (d, r) := digitSpan l
  if d.length = 1 || d.length = 2 then some (digitsVal d, r) else none

/-- Parse exactly four digits (strptime %Y). -/
def take4Digits (l : List Char) : Option (Nat × List Char) :=
  let (d, r) := digitSpan l
  if d.length = 4 then some (digitsVal d, r) else none

/-- Parse "%H:%M" against the whole string: hour 0-23, minute 0-59. -/
def parseTimeHM24 (s : String) : Option (Nat × Nat) := do
  let (h, r1) ← take2Digits s.data
  if h ≤ 23 then
    match r1 with
    | ':' :: r2 => do
      let (mi, r3) ← take2Digits r2
      if mi ≤ 59 && r3.isEmpty then some (h, mi) else none
    | _ => none
  else none

/-- Consume an AM/PM marker (case-insensitive); returns true for PM. -/
def takeAmPm : List Char → Option (Bool × List Char)
  | c1 :: c2 :: r =>
    if (c1 = 'a' || c1 = 'A') && (c2 = 'm' || c2 = 'M') then some (false, r)
    else if (c1 = 'p' || c1 = 'P') && (c2 = 'm' || c2 = 'M') then some (true, r)
    else none
  | _ => none

/-- Parse "%I:%M %p" (needsWS true: one or more whitespace before the
marker) or "%I:%M%p" (needsWS false) and convert to a 24h clock. -/
def parseTimeIMp (needsWS : Bool) (s : String) : Option (Nat × Nat) := do
  let (h, r1) ← take2Digits s.data
  if 1 ≤ h && h ≤ 12 then
    match r1 with
    | ':' :: r2 => do
      let (mi, r3) ← take2Digits r2
      if mi ≤ 59 then
        let r4 := if needsWS then r3.dropWhile pyIsWS else r3
        if needsWS && (r3.dropWhile pyIsWS).length = r3.length then none
        else do
          let (pm, r5) ← takeAmPm r4
          if r5.isEmpty then
            let h24 := if pm then (if h = 12 then 12 else h + 12)
                       else (if h = 12 then 0 else h)
            some (h24, mi)
          else none
      else none
    | _ => none
  else none

/-- The time formats tried in order by the source storage layer
("%H:%M", "%I:%M %p", "%I:%M%p") on the stripped time string. -/
def parseTimeOfStr (s : String) : Option (Nat × Nat) :=
  let t := pyStrip s
  (parseTimeHM24 t).orElse fun _ =>
    (parseTimeIMp true t).orElse fun _ => parseTimeIMp false t

/-- Parse "%Y-%m-%d" against the whole string with calendar validation
(year at least 1 as required by datetime, day within the month). -/
def parseDateYMD (s : String) : Option (Nat × Nat × Nat) := do
  let (y, r1) ← take4Digits s.data
  if 1 ≤ y then
    match r1 with
    | '-' :: r2 => do
      let (mo, r3) ← take2Digits r2
      if 1 ≤ mo && mo ≤ 12 then
        match r3 with
        | '-' :: r4 => do
          let (d, r5) ← take2Digits r4
          if 1 ≤ d && d ≤ monthLen y mo && r5.isEmpty then some (y, mo, d) else none
        | _ => none
      else none
    | _ => none
  else none

/-- Parse the concatenated commit string against "%Y-%m-%d %H:%M"
(the literal space in the format matches one or more whitespace chars). -/
def parseYMDHM (s : String) : Option (Nat × Nat × Nat × Nat × Nat) := do
  let (y, r1) ← take4Digits s.data
  if 1 ≤ y then
    match r1 with
    | '-' :: r2 => do
      let (mo, r3) ← take2Digits r2
      if 1 ≤ mo && mo ≤ 12 then
        match r3 with
        | '-' :: r4 => do
          let (d, r5) ← take2Digits r4
          if 1 ≤ d && d ≤ monthLen y mo then
            let r6 := r5.dropWhile pyIsWS
            if r6.length = r5.length then none
            else do
              let (h, r7) ← take2Digits r6
              if h ≤ 23 then
                match r7 with
                | ':' :: r8 => do
                  let (mi, r9) ← take2Digits r8
                  if mi ≤ 59 && r9.isEmpty then some (y, mo, d, h, mi) else none
                | _ => none
              else none
          else none
        | _ => none
      else none
    | _ => none
  else none

/-- Full weekday names indexed with 0 = Sunday (strftime %A). -/
def weekdayName (y mo d : Nat) : String :=
  ["Sunday", "Monday", "Tuesday", "Wednesday", "Thursday", "Friday", "Saturday"].getD
    ((daysFromCivil y mo d + 4).emod 7).toNat ""

/-- Full month names (strftime %B). -/
def monthName (mo : Nat) : String :=
  ["January", "February", "March", "April", "May", "June", "July",
   "August", "September", "October", "November", "December"].getD (mo - 1) ""

/-- strftime "%A, %B %d, %Y" as used in the scheduling messages. -/
def fmtADY (y mo d : Nat) : String :=
  weekdayName y mo d ++ ", " ++ monthName mo ++ " " ++ pad2 d ++ ", " ++ pad4 y

/-- strftime "%I:%M %p" as used in the scheduling messages. -/
def fmtIMp (h mi : Nat) : String :=
  let r := h % 12
  pad2 (if r = 0 then 12 else r) ++ ":" ++ pad2 mi ++ " " ++ (if h < 12 then "AM" else "PM")

/-! ## Contact Directory (address_book.py) -/

/-- A contact record of the address book. -/
structure Contact where
  id : String := ""
  name : String := ""
  email : String := ""
  department : String := ""
  role : String := ""
  phone : String := ""
deriving DecidableEq, Repr

/-- The address book; only the contacts list is relevant to the core. -/
structure AddressBook where
  contacts : List Contact := []
deriving DecidableEq, Repr

/-- find_by_name: contacts whose name contains the search string
(case-insensitive). -/
def find_by_name (ab : AddressBook) (name : String) : List Contact :=
  let nl := pyLower (pyStrip name)
  ab.contacts.filter fun c => strHas (pyLower c.name) nl

/-- find_by_exact_name: first contact whose full name equals the query
case-insensitively, none otherwise. -/
def find_by_exact_name (ab : AddressBook) (name : String) : Option Contact :=
  let nl := pyLower (pyStrip name)
  ab.contacts.find? fun c => pyLower c.name == nl

/-- find_by_first_name: contacts whose first whitespace-delimited name
token equals the query case-insensitively.  A contact whose name has no
token makes the source raise IndexError on split()[0]; that is the error
case here. -/
def find_by_first_name_go (fn : String) : List Contact → Except Unit (List Contact)
  | [] => .ok []
  | c :: cs =>
    match firstTok (pyLower c.name) with
    | none => .error ()
    | some t => do
      let rest ← find_by_first_name_go fn cs
      .ok (if t == fn then c :: rest else rest)

def find_by_first_name (ab : AddressBook) (first_name : String) : Except Unit (List Contact) :=
  find_by_first_name_go (pyLower (pyStrip first_name)) ab.contacts

/-- find_by_department: all contacts of a department (case-insensitive). -/
def find_by_department (ab : AddressBook) (department : String) : List Contact :=
  let dl := pyLower (pyStrip department)
  ab.contacts.filter fun c => pyLower c.department == dl

/-- find_by_email: first contact with the given email (case-insensitive). -/
def find_by_email (ab : AddressBook) (email : String) : Option Contact :=
  let el := pyLower (pyStrip email)
  ab.contacts.find? fun c => pyLower c.email == el

/-- find_by_id: first contact with the given id. -/
def find_by_id (ab : AddressBook) (contact_id : String) : Option Contact :=
  ab.contacts.find? fun c => c.id == contact_id

/-- search: substring OR across name, email, department, role. -/
def searchContacts (ab : AddressBook) (query : String) : List Contact :=
  let q := pyLower (pyStrip query)
  ab.contacts.filter fun c =>
    strHas (pyLower c.name) q || strHas (pyLower c.email) q ||
    strHas (pyLower c.department) q || strHas (pyLower c.role) q

/-- Truthiness of the optional department argument: None and the empty
string are both falsy in the source. -/
def deptTruthy : Option String → Bool
  | none => false
  | some s => !(s == "")

/-- resolve_participant: tiered resolution exactly as in the source
(exact name, then first-name matches with optional department filter,
then unique first-name hit, then substring matches with optional
department filter, then substring matches else first-name matches). -/
def resolve_participant (ab : AddressBook) (name : String) (department : Option String) :
    Except Unit (List Contact) :=
  match find_by_exact_name ab name with
  | some exact => .ok [exact]
  | none => do
    let first_name_matches ← find_by_first_name ab name
    let dl := pyLower (pyStrip (department.getD ""))
    let filtered := first_name_matches.filter fun c => pyLower c.department == dl
    if deptTruthy department && !filtered.isEmpty then
      .ok filtered
    else if first_name_matches.length = 1 then
      .ok first_name_matches
    else
      let part := find_by_name ab name
      let pfiltered := part.filter fun c => pyLower c.department == dl
      if deptTruthy department && !pfiltered.isEmpty then
        .ok pfiltered
      else
        .ok (if !part.isEmpty then part else first_name_matches)

/-- get_department_members is an alias of the department lookup. -/
def get_department_members (ab : AddressBook) (department : String) : List Contact :=
  find_by_department ab department

/-- get_emails_for_contacts: emails of the contacts that have one. -/
def get_emails_for_contacts (contacts : List Contact) : List String :=
  (contacts.filter fun c => !(c.email == "")).map fun c => c.email

/-- format_contact: display form used in disambiguation lists. -/
def format_contact (c : Contact) : String :=
  pyJoin " " ([c.name]
    ++ (if !(c.role == "") then ["(" ++ c.role ++ ")"] else [])
    ++ (if !(c.department == "") then ["- " ++ c.department] else []))

/-! ## Meeting Ledger (storage.py, MeetingStore) -/

/-- A persisted meeting record.  parent_meeting_id and mom_id are None in
the source when absent; the source only tests them for truthiness, so
None is modelled as the empty string. -/
structure MeetingRecord where
  id : String := ""
  thread_id : String := ""
  parent_meeting_id : String := ""
  user_email : String := ""
  title : String := ""
  date : String := ""
  time : String := ""
  duration_minutes : Int := 45
  participants : List String := []
  participant_emails : List String := []
  description : String := ""
  calendar_event_id : String := ""
  calendar_event_link : String := ""
  mom_id : String := ""
  status : String := "scheduled"
  created_at : String := ""
deriving DecidableEq, Repr

/-- The meeting store: the loaded data (meetings plus the thread index,
an insertion-ordered dict modelled as an association list) and the
current actor. -/
structure MeetingStore where
  user_email : String := ""
  is_admin : Bool := false
  meetings : List MeetingRecord := []
  threads : List (String × List String) := []
deriving DecidableEq, Repr

/-- _filter_by_user: meetings of the current user, or all when admin or
when no user email is set. -/
def filter_by_user (st : MeetingStore) (ms : List MeetingRecord) : List MeetingRecord :=
  if st.is_admin || st.user_email == "" then ms
  else ms.filter fun m => m.user_email == st.user_email

/-- The meetings property: the user-filtered view of the stored list. -/
def visibleMeetings (st : MeetingStore) : List MeetingRecord :=
  filter_by_user st st.meetings

/-- _parse_meeting_datetime: parse date/time strings to the (start, end)
minute interval; the end adds the duration, 45 when the duration is
falsy (zero). -/
def parse_meeting_datetime (date_str time_str : String) (duration_minutes : Int) :
    Option (Int × Int) :=
  if date_str == "" || time_str == "" then none
  else
    match parseTimeOfStr time_str with
    | none => none
    | some (h, mi) =>
      match parseDateYMD (pyStrip date_str) with
      | none => none
      | some (y, mo, d) =>
        let start := minutesOf y mo d h mi
        some (start, start + (if duration_minutes = 0 then 45 else duration_minutes))

/-- Truthiness of the optional exclude id (None and "" are falsy). -/
def exTruthy : Option String → Bool
  | none => false
  | some s => !(s == "")

/-- get_conflicting_meetings: meetings of the visible view that are not
cancelled, not the (truthy) excluded id, parse to an interval, and
overlap the candidate slot under the half-open test. -/
def get_conflicting_meetings (st : MeetingStore) (date_str time_str : String)
    (duration_minutes : Int) (exclude_meeting_id : Option String) : List MeetingRecord :=
  match parse_meeting_datetime date_str time_str duration_minutes with
  | none => []
  | some (start_new, end_new) =>
    (visibleMeetings st).filter fun m =>
      if m.status == "cancelled" then false
      else if exTruthy exclude_meeting_id && m.id == exclude_meeting_id.getD "" then false
      else
        match parse_meeting_datetime m.date m.time m.duration_minutes with
        | none => false
        | some (start_ex, end_ex) => decide (start_new < end_ex) && decide (end_new > start_ex)

/-- get_meeting: first visible meeting with the given id. -/
def get_meeting (st : MeetingStore) (meeting_id : String) : Option MeetingRecord :=
  (visibleMeetings st).find? fun m => m.id == meeting_id

/-- _get_thread_for_meeting: the first thread whose id list contains the
meeting. -/
def get_thread_for_meeting (st : MeetingStore) (meeting_id : String) : Option String :=
  (st.threads.find? fun t => t.2.contains meeting_id).map Prod.fst

/-- Append a meeting id to a thread of the index, creating the thread
entry when absent (dict insertion semantics). -/
def threadAppendGo (tid mid : String) : List (String × List String) → List (String × List String)
  | [] => [(tid, [mid])]
  | t :: ts => if t.1 == tid then (t.1, t.2 ++ [mid]) :: ts else t :: threadAppendGo tid mid ts

/-- The subset of meeting_info keys the commit path supplies. -/
structure MeetingInfo where
  title : String := ""
  date : String := ""
  time : String := ""
  duration_minutes : Int := 45
  participants : List String := []
  participant_emails : List String := []
  description : String := ""
  calendar_event_id : String := ""
  calendar_event_link : String := ""
deriving DecidableEq, Repr

/-- add_meeting: allocate a record (fresh ids supplied by the caller in
place of uuid/now), link it to the parent's thread when a truthy parent
is given, append it and extend the thread index. -/
def add_meeting (st : MeetingStore) (info : MeetingInfo) (parent_meeting_id : String)
    (freshMid freshTid nowIso : String) : MeetingStore × MeetingRecord :=
  let thread_id :=
    if !(parent_meeting_id == "") then (get_thread_for_meeting st parent_meeting_id).getD freshTid
    else freshTid
  let record : MeetingRecord := {
    id := freshMid
    thread_id := thread_id
    parent_meeting_id := parent_meeting_id
    user_email := st.user_email
    title := info.title
    date := info.date
    time := info.time
    duration_minutes := info.duration_minutes
    participants := info.participants
    participant_emails := info.participant_emails
    description := info.description
    calendar_event_id := info.calendar_event_id
    calendar_event_link := info.calendar_event_link
    mom_id := ""
    status := "scheduled"
    created_at := nowIso }
  ({ st with
      meetings := st.meetings ++ [record]
      threads := threadAppendGo thread_id freshMid st.threads },
   record)

/-- _can_modify_meeting: admin, or the meeting belongs to the actor. -/
def can_modify_meeting (st : MeetingStore) (m : MeetingRecord) : Bool :=
  st.is_admin || m.user_email == st.user_email

/-- The keyword updates the manager passes to update_meeting. -/
structure MeetingUpdate where
  status : Option String := none
  date : Option String := none
  time : Option String := none
  duration_minutes : Option Int := none
  participants : Option (List String) := none
  participant_emails : Option (List String) := none
  calendar_event_id : Option String := none
  calendar_event_link : Option String := none
deriving DecidableEq, Repr

def applyUpdate (m : MeetingRecord) (u : MeetingUpdate) : MeetingRecord :=
  { m with
    status := u.status.getD m.status
    date := u.date.getD m.date
    time := u.time.getD m.time
    duration_minutes := u.duration_minutes.getD m.duration_minutes
    participants := u.participants.getD m.participants
    participant_emails := u.participant_emails.getD m.participant_emails
    calendar_event_id := u.calendar_event_id.getD m.calendar_event_id
    calendar_event_link := u.calendar_event_link.getD m.calendar_event_link }

/-- update_meeting scans the full stored list (not the filtered view);
the first id match is updated in place when the actor may modify it, and
the scan stops at the first match either way. -/
def update_meeting_go (st : MeetingStore) (meeting_id : String) (u : MeetingUpdate) :
    List MeetingRecord → List MeetingRecord × Option MeetingRecord
  | [] => ([], none)
  | m :: ms =>
    if m.id == meeting_id then
      if can_modify_meeting st m then (applyUpdate m u :: ms, some (applyUpdate m u))
      else (m :: ms, none)
    else
      let (ms', r) := update_meeting_go st meeting_id u ms
      (m :: ms', r)

def update_meeting (st : MeetingStore) (meeting_id : String) (u : MeetingUpdate) :
    MeetingStore × Option MeetingRecord :=
  let (ms', r) := update_meeting_go st meeting_id u st.meetings
  ({ st with meetings := ms' }, r)

/-- cancel_meeting: update the status to cancelled. -/
def cancel_meeting (st : MeetingStore) (meeting_id : String) :
    MeetingStore × Option MeetingRecord :=
  update_meeting st meeting_id { status := some "cancelled" }

/-! ## Dialogue manager (meeting_manager.py) -/

/-- A raw participant spec coming from the parsed command (keys read via
get with the defaults shown). -/
structure RawParticipant where
  name : String := ""
  department : String := ""
  is_department_group : Bool := false
deriving DecidableEq, Repr

/-- Result shape of _resolve_all_participants. -/
structure ResolveResult where
  resolved : List Contact := []
  needs_disambiguation : Bool := false
  disambiguation_needed : List (String × (RawParticipant × List Contact)) := []
  disambiguation_message : String := ""
deriving DecidableEq, Repr

/-- Mutable loop state of _resolve_all_participants before dedup. -/
structure ResolveLoopState where
  resolved : List Contact := []
  needs_disambiguation : Bool := false
  disambiguation_needed : List (String × (RawParticipant × List Contact)) := []
  msgs : List String := []
deriving DecidableEq, Repr

/-- Dict assignment on the disambiguation map: overwrite the first entry
with the key, else append. -/
def assocSet (k : String) (v : RawParticipant × List Contact) :
    List (String × (RawParticipant × List Contact)) →
    List (String × (RawParticipant × List Contact))
  | [] => [(k, v)]
  | e :: es => if e.1 == k then (k, v) :: es else e :: assocSet k v es

/-- One-based numbered disambiguation list of candidate matches. -/
def matchListLines (ms : List Contact) : List String :=
  (ms.enum.map fun p => "  " ++ toString (p.1 + 1) ++ ". " ++ format_contact p.2)

/-- The loop of _resolve_all_participants over the raw participant specs
(department groups expand to the full membership; individuals go through
resolve_participant; zero or ambiguous matches collect messages). -/
def resolveLoop (ab : AddressBook) : ResolveLoopState → List RawParticipant →
    Except Unit ResolveLoopState
  | s, [] => .ok s
  | s, p :: ps =>
    if p.is_department_group && !(p.department == "") then
      let members := get_department_members ab p.department
      let s' :=
        if !members.isEmpty then { s with resolved := s.resolved ++ members }
        else { s with msgs := s.msgs ++
          ["I couldn't find any contacts in the '" ++ p.department ++
           "' department."] }
      resolveLoop ab s' ps
    else do
      let found ← resolve_participant ab p.name (some p.department)
      let s' :=
        if found.length = 1 then
          { s with resolved := s.resolved ++ found }
        else if found.length = 0 then
          { s with
            msgs := s.msgs ++
              ["I couldn't find '" ++ p.name ++ "'" ++
               (if !(p.department == "") then " in " ++ p.department else "") ++
               " in the address book. Could you provide their full name?"]
            needs_disambiguation := true
            disambiguation_needed := assocSet p.name (p, []) s.disambiguation_needed }
        else if found.length > 1 && p.department == "" then
          { s with
            msgs := s.msgs ++
              ["I found multiple people named '" ++ p.name ++ "':\n" ++
               pyJoin "\n" (matchListLines found) ++
               "\nWhich one did you mean? (Specify by number or full name)"]
            needs_disambiguation := true
            disambiguation_needed := assocSet p.name (p, found) s.disambiguation_needed }
        else
          { s with resolved := s.resolved ++ found }
      resolveLoop ab s' ps

/-- The final dedup of _resolve_all_participants: keep a contact only
when its id was not seen before. -/
def dedupByIdGo (seen : List String) : List Contact → List Contact
  | [] => []
  | r :: rs =>
    if seen.contains r.id then dedupByIdGo seen rs
    else r :: dedupByIdGo (r.id :: seen) rs

def dedupById (l : List Contact) : List Contact :=
  dedupByIdGo [] l

/-- _resolve_all_participants: run the loop, then dedup by contact id and
join the collected messages. -/
def resolve_all_participants (ab : AddressBook) (participants_raw : List RawParticipant) :
    Except Unit ResolveResult := do
  let s ← resolveLoop ab {} participants_raw
  .ok { resolved := dedupById s.resolved
        needs_disambiguation := s.needs_disambiguation
        disambiguation_needed := s.disambiguation_needed
        disambiguation_message :=
          if !s.msgs.isEmpty then pyJoin "\n\n" s.msgs else "" }

/-- Specification-side dedup: keep the first occurrence of each id and
drop every later contact with an already kept id. -/
def keepFirsts : List Contact → List Contact
  | [] => []
  | c :: cs => c :: keepFirsts (cs.filter fun d => !(d.id == c.id))
termination_by l => l.length
decreasing_by
  simp only [List.length_cons]
  exact Nat.lt_succ_of_le (List.length_filter_le _ _)

/-- The pending draft of the dialogue manager. -/
structure PendingMeeting where
  title : String := ""
  date : String := ""
  time : String := ""
  duration_minutes : Int := 0
  description : String := ""
  participants_raw : List RawParticipant := []
  use_first_available : Bool := false
  is_followup : Bool := false
  followup_reference : String := ""
deriving DecidableEq, Repr

/-- Result dict of the calendar collaborator, keys read via get (error is
absent in some results, hence optional). -/
structure CalResult where
  success : Bool := false
  event_id : String := ""
  html_link : String := ""
  meet_link : String := ""
  error : Option String := none
deriving DecidableEq, Repr

/-- Outcome of _execute_scheduling: the conversation state after the
turn, the response, the store, and flags recording which collaborators
were invoked. -/
structure ExecResult where
  state : String := "idle"
  pending : PendingMeeting := {}
  resolved_participants : List Contact := []
  store : MeetingStore := {}
  message : String := ""
  action : String := ""
  record : Option MeetingRecord := none
  calendarCalled : Bool := false
  notifiedOrganizer : Bool := false
  notifiedParticipants : Bool := false
deriving DecidableEq, Repr

/-- _execute_scheduling: parse the draft's date plus time against
"%Y-%m-%d %H:%M"; on failure reset and report an error without touching
the store or the calendar; on success create the calendar event (its
result is the cal parameter), persist the record via add_meeting, build
the success or the calendar-failure message, notify, and reset. -/
def execute_scheduling (pending : PendingMeeting) (resolved : List Contact)
    (st : MeetingStore) (cal : CalResult) (smtpEmail : String)
    (freshMid freshTid nowIso : String) : ExecResult :=
  let date_str := pending.date
  let time_str := pending.time
  let duration := pending.duration_minutes
  match parseYMDHM (date_str ++ " " ++ time_str) with
  | none =>
    { state := "idle", pending := {}, resolved_participants := [], store := st
      message := "Sorry, there was an error parsing the date/time. Please try again."
      action := "error", record := none, calendarCalled := false
      notifiedOrganizer := false, notifiedParticipants := false }
  | some (y, mo, d, h, mi) =>
    let attendee_emails := get_emails_for_contacts resolved
    let participant_names := resolved.map fun p => p.name
    let (st', record) := add_meeting st
      { title := pending.title
        date := date_str
        time := time_str
        duration_minutes := duration
        participants := participant_names
        participant_emails := attendee_emails
        description := pending.description
        calendar_event_id := cal.event_id
        calendar_event_link := cal.html_link }
      (if pending.is_followup then pending.followup_reference else "")
      freshMid freshTid nowIso
    let msg_parts :=
      if cal.success then
        ["Meeting scheduled successfully!\n",
         "**" ++ pending.title ++ "**",
         "**Date:** " ++ fmtADY y mo d,
         "**Time:** " ++ fmtIMp h mi ++ " (" ++ toString duration ++ " minutes)",
         "**Participants:** " ++ pyJoin ", " participant_names]
        ++ (if !(cal.html_link == "") then
              ["\n[Open in Google Calendar](" ++ cal.html_link ++ ")"] else [])
        ++ (if !(cal.meet_link == "") then
              ["[Join Google Meet](" ++ cal.meet_link ++ ")"] else [])
        ++ ["\nCalendar invites have been sent to all participants."]
      else
        ["Meeting recorded locally but calendar invite could not be sent.",
         "Error: " ++ cal.error.getD "Unknown",
         "\n**" ++ pending.title ++ "**",
         "**Date:** " ++ fmtADY y mo d,
         "**Time:** " ++ fmtIMp h mi ++ " (" ++ toString duration ++ " minutes)",
         "**Participants:** " ++ pyJoin ", " participant_names]
    { state := "idle", pending := {}, resolved_participants := []
      store := st'
      message := pyJoin "\n" msg_parts
      action := "scheduled"
      record := some record
      calendarCalled := true
      notifiedOrganizer := cal.success && !(smtpEmail == "")
      notifiedParticipants := !attendee_emails.isEmpty }

/-- Stable latest pick: sorted(candidates, key=created_at, reverse)[0]
is the first element among those with the maximal created_at. -/
def pickLatest : List MeetingRecord → Option MeetingRecord
  | [] => none
  | x :: xs => some (xs.foldl (fun b r => if decide (b.created_at < r.created_at) then r else b) x)

/-- _find_meeting_by_participant_hints on an already computed scheduled
list: latest overall when no hints, else latest among the meetings one of
whose lowered participant names contains one of the hints. -/
def find_meeting_by_hints (hint_names : List String) (scheduled : List MeetingRecord) :
    Option MeetingRecord :=
  if scheduled.isEmpty then none
  else if hint_names.isEmpty then pickLatest scheduled
  else
    let candidates := scheduled.filter fun m =>
      m.participants.any fun p => hint_names.any fun h => strHas (pyLower p) h
    if candidates.isEmpty then none else pickLatest candidates

/-- The zip-merge of _handle_add_attendees: walk the paired new emails
and names, appending the pairs whose email is truthy and unseen
(case-insensitively), threading the seen set. -/
def mergeAttendeesGo (names emails seen : List String) :
    List (String × String) → List String × List String
  | [] => (names, emails)
  | (e, n) :: rest =>
    if !(e == "") && !(seen.contains (pyLower e)) then
      mergeAttendeesGo (names ++ [n]) (emails ++ [e]) (seen ++ [pyLower e]) rest
    else
      mergeAttendeesGo names emails seen rest

/-- Response shape of the attendee-edit handlers. -/
structure HandlerResult where
  message : String := ""
  action : String := ""
  store : MeetingStore := {}
  calendarCalled : Bool := false
deriving DecidableEq, Repr

/-- The tail of _handle_add_attendees once the target meeting and the
resolved contacts to add are known (source lines 950-1015): merge the
attendee lists, reject a merge that adds nothing, update or create the
calendar event (results supplied as parameters), persist the merged
lists, and report. -/
def handle_add_attendees_core (meeting : MeetingRecord) (new_contacts : List Contact)
    (st : MeetingStore) (calAuth : Bool) (updAttRes createRes : CalResult) : HandlerResult :=
  let new_emails := get_emails_for_contacts new_contacts
  let new_names := new_contacts.map fun c => c.name
  let existing_emails := meeting.participant_emails
  let existing_names := meeting.participants
  let seen_emails := existing_emails.map pyLower
  let (merged_names, merged_emails) :=
    mergeAttendeesGo existing_names existing_emails seen_emails (new_emails.zip new_names)
  if merged_emails.length = meeting.participant_emails.length then
    { message := "Those participants are already on the meeting, or I couldn't resolve their emails from the address book."
      action := "chat", store := st, calendarCalled := false }
  else
    let event_id := meeting.calendar_event_id
    let isMock := leadAgrees "mock_" (pyLower (pyStrip event_id))
    let can_update := !(event_id == "") && !isMock && calAuth
    let (cal_result, st1, called) :=
      if can_update then (updAttRes, st, true)
      else if calAuth && (event_id == "" || isMock) then
        if createRes.success then
          (createRes,
           (update_meeting st meeting.id
             { calendar_event_id := some createRes.event_id
               calendar_event_link := some createRes.html_link }).1,
           true)
        else ({}, st, true)
      else ({}, st, false)
    let st2 := (update_meeting st1 meeting.id
      { participants := some merged_names
        participant_emails := some merged_emails }).1
    let added_names := new_names.filter fun n => merged_names.contains n
    let msg := "Done. I've added **" ++
      pyJoin ", " (if !added_names.isEmpty then added_names else new_names) ++
      "** to **" ++ meeting.title ++ "**. " ++
      (if cal_result.success then "Calendar and invite updates have been sent."
       else "Meeting record updated; calendar could not be updated. " ++ cal_result.error.getD "")
    { message := msg, action := "attendees_updated", store := st2, calendarCalled := called }

/-- Hint matching of _handle_remove_attendees: a participant name is hit
when some hint is a substring of its lowered form or a leading segment of
it (the second test is subsumed by the first, as in the source). -/
def name_matches_any (name : String) (hints : List String) : Bool :=
  let n := pyLower name
  hints.any fun h => strHas n h || leadAgrees h n

/-- Last-wins association lookup, the dict(zip(names, emails)) of the
remove handler. -/
def lookupLast (l : List (String × String)) (k : String) : Option String :=
  (l.reverse.find? fun p => p.1 == k).map Prod.snd

/-- The kept participant and email lists of _handle_remove_attendees:
drop the participants hit by a removal hint, rebuild the kept emails
from the dict of names zipped with emails (empty when the email list is
shorter), and fall back to a prefix of the email list when the rebuilt
list is shorter than the kept names. -/
def removeKeepLists (current_participants current_emails to_remove_names_lower : List String) :
    List String × List String :=
  let keep_names := current_participants.filter fun p =>
    !(name_matches_any p to_remove_names_lower)
  let keep_emails_by_name :=
    if current_emails.length ≥ current_participants.length then
      current_participants.zip current_emails
    else []
  let keep_emails0 := (keep_names.filter fun n =>
      (lookupLast keep_emails_by_name n).isSome).map fun n =>
    (lookupLast keep_emails_by_name n).getD ""
  let keep_emails :=
    if keep_emails0.length < keep_names.length then
      current_emails.take keep_names.length
    else keep_emails0
  (keep_names, keep_emails)

/-- _handle_remove_attendees (source lines 1017-1080): locate the target
among the actor's scheduled meetings by the reference hints, drop the
participants hit by the removal hints, reject a removal that does not
shrink the list, rebuild the kept email list from the name-to-email map,
optionally update the calendar (result supplied), and persist. -/
def handle_remove_attendees (ref_participants to_remove_raw : List RawParticipant)
    (st : MeetingStore) (calAuth : Bool) (updAttRes : CalResult) : HandlerResult :=
  let ref_names := (ref_participants.filter fun p => !(p.name == "")).map
    fun p => pyLower (pyStrip p.name)
  let to_remove_names_lower := (to_remove_raw.filter fun p => !(p.name == "")).map
    fun p => pyLower (pyStrip p.name)
  if to_remove_names_lower.isEmpty then
    { message := "Who would you like to remove from the meeting? (e.g. 'Remove John from my meeting with Nitin')"
      action := "chat", store := st, calendarCalled := false }
  else
    let scheduled := (visibleMeetings st).filter fun m => m.status == "scheduled"
    if scheduled.isEmpty then
      { message := "I couldn't find any scheduled meetings.", action := "chat"
        store := st, calendarCalled := false }
    else
      match find_meeting_by_hints ref_names scheduled with
      | none =>
        { message := "I couldn't find a scheduled meeting matching that. Try e.g. 'Remove [name] from my meeting with [someone in the meeting]'."
          action := "chat", store := st, calendarCalled := false }
      | some meeting =>
        let current_participants := meeting.participants
        let current_emails := meeting.participant_emails
        let kl := removeKeepLists current_participants current_emails to_remove_names_lower
        let keep_names := kl.1
        -- the source's first keep_emails binding is immediately shadowed
        -- by the recomputation from the name-to-email map inside
        -- removeKeepLists
        if keep_names.length ≥ current_participants.length then
          { message := "I couldn't match those names to current attendees, or they're not on the meeting."
            action := "chat", store := st, calendarCalled := false }
        else
          let removed := current_participants.filter fun p => !(keep_names.contains p)
          let keep_emails := kl.2
          let event_id := meeting.calendar_event_id
          let can_update := !(event_id == "") &&
            !(leadAgrees "mock_" (pyLower (pyStrip event_id))) && calAuth
          let cal_result := if can_update then updAttRes else ({} : CalResult)
          let st' := (update_meeting st meeting.id
            { participants := some keep_names
              participant_emails := some keep_emails }).1
          let msg := "Done. I've removed **" ++ pyJoin ", " removed ++
            "** from **" ++ meeting.title ++ "**. " ++
            (if cal_result.success then
              "Calendar has been updated and they will no longer receive updates for this meeting."
             else "Meeting record updated." ++
               (if !(cal_result.error.getD "" == "") then
                 " Calendar: " ++ cal_result.error.getD "" else ""))
          { message := msg, action := "attendees_updated", store := st'
            calendarCalled := can_update }

/-! ## Helper lemmas -/

theorem leadAgreesL_append (p t : List Char) : leadAgreesL p (p ++ t) = true := by
  induction p with
  | nil => rfl
  | cons a as ih => simp [leadAgreesL, ih]

theorem leadAgrees_append (p t : String) : leadAgrees p (p ++ t) = true := by
  have h : (p ++ t).data = p.data ++ t.data := by
    cases p; cases t; rfl
  simp only [leadAgrees, h]
  exact leadAgreesL_append _ _

theorem leadAgreesL_total (p q s : List Char) (hp : leadAgreesL p s = true)
    (hq : leadAgreesL q s = true) : leadAgreesL p q = true ∨ leadAgreesL q p = true := by
  induction s generalizing p q with
  | nil =>
    cases p with
    | nil => exact Or.inl rfl
    | cons a as => simp [leadAgreesL] at hp
  | cons c cs ih =>
    cases p with
    | nil => exact Or.inl rfl
    | cons a as =>
      cases q with
      | nil => exact Or.inr rfl
      | cons b bs =>
        simp only [leadAgreesL, Bool.and_eq_true, decide_eq_true_eq] at hp hq
        rcases ih as bs hp.2 hq.2 with h | h
        · exact Or.inl (by simp [leadAgreesL, hp.1, hq.1, h])
        · exact Or.inr (by simp [leadAgreesL, hp.1, hq.1, h])

/-- The head element of a joined list is a leading segment of the join. -/
theorem pyJoin_head_lead (sep a : String) (l : List String) :
    ∃ t, pyJoin sep (a :: l) = a ++ t := by
  cases l with
  | nil => exact ⟨"", by simp [pyJoin]⟩
  | cons b bs => exact ⟨sep ++ pyJoin sep (b :: bs), by simp [pyJoin, String.append_assoc]⟩

theorem filter_eq_self_of_none {α : Type} (l : List α) (q : α -> Bool)
    (h : ∀ a ∈ l, q a = false) : l.filter (fun a => !q a) = l := by
  rw [List.filter_eq_self]
  intro a ha
  simp [h a ha]

theorem applyUpdate_id (m : MeetingRecord) (u : MeetingUpdate) :
    (applyUpdate m u).id = m.id := rfl

theorem applyUpdate_user_email (m : MeetingRecord) (u : MeetingUpdate) :
    (applyUpdate m u).user_email = m.user_email := rfl

/-- update_meeting_go on a list whose first id match is modifiable:
the match is updated in place and returned. -/
theorem update_go_found (st : MeetingStore) (mid : String) (u : MeetingUpdate)
    (l : List MeetingRecord) (m : MeetingRecord)
    (hfind : l.find? (fun x => x.id == mid) = some m)
    (hmod : can_modify_meeting st m = true) :
    (update_meeting_go st mid u l).2 = some (applyUpdate m u) ∧
    (update_meeting_go st mid u l).1.find? (fun x => x.id == mid) =
      some (applyUpdate m u) := by
  induction l with
  | nil => simp at hfind
  | cons a as ih =>
    by_cases ha : a.id = mid
    · rw [List.find?_cons_of_pos _ (by simp [ha])] at hfind
      have hma : m = a := by cases hfind; rfl
      subst hma
      constructor
      · simp [update_meeting_go, ha, hmod]
      · simp only [update_meeting_go, beq_iff_eq, ha, if_true, hmod]
        exact List.find?_cons_of_pos _ (by simp [applyUpdate_id, ha])
    · rw [List.find?_cons_of_neg _ (by simp [ha])] at hfind
      have := ih hfind
      simp only [update_meeting_go, beq_iff_eq, ha, if_false]
      constructor
      · exact this.1
      · rw [List.find?_cons_of_neg _ (by simp [ha])]
        exact this.2

/-- C8: for a meeting the actor may modify, cancelling twice leaves the
stored record cancelled and the second call still returns the record
rather than none. -/
theorem c8_cancel_idempotent (st : MeetingStore) (mid : String) (m : MeetingRecord)
    (hfind : st.meetings.find? (fun x => x.id == mid) = some m)
    (hmod : can_modify_meeting st m = true) :
    ∃ m2, (cancel_meeting (cancel_meeting st mid).1 mid).2 = some m2 ∧
      m2.status = "cancelled" ∧
      (cancel_meeting (cancel_meeting st mid).1 mid).1.meetings.find?
        (fun x => x.id == mid) = some m2 := by
  have h1 := update_go_found st mid { status := some "cancelled" } st.meetings m hfind hmod
  have hmod1 : can_modify_meeting st (applyUpdate m { status := some "cancelled" }) = true := by
    simpa [can_modify_meeting, applyUpdate_user_email] using hmod
  have hst1 : (cancel_meeting st mid).1.meetings =
      (update_meeting_go st mid { status := some "cancelled" } st.meetings).1 := rfl
  have hmod1' : can_modify_meeting (cancel_meeting st mid).1
      (applyUpdate m { status := some "cancelled" }) = true := by
    simpa [can_modify_meeting, cancel_meeting, update_meeting] using hmod1
  have h2 := update_go_found (cancel_meeting st mid).1 mid { status := some "cancelled" }
    ((cancel_meeting st mid).1.meetings) (applyUpdate m { status := some "cancelled" })
    (by rw [hst1]; exact h1.2) hmod1'
  refine ⟨applyUpdate (applyUpdate m { status := some "cancelled" }) { status := some "cancelled" },
    h2.1, rfl, h2.2⟩

def c8w_m : MeetingRecord := { id := "m1", user_email := "a@x", status := "scheduled" }

def c8w_st : MeetingStore := { user_email := "a@x", meetings := [c8w_m] }

theorem c8_witness :
    ∃ m2, (cancel_meeting (cancel_meeting c8w_st "m1").1 "m1").2 = some m2 ∧
      m2.status = "cancelled" ∧
      (cancel_meeting (cancel_meeting c8w_st "m1").1 "m1").1.meetings.find?
        (fun x => x.id == "m1") = some m2 :=
  c8_cancel_idempotent c8w_st "m1" c8w_m (by rfl) (by rfl)

/-- C6: when the draft date/time does not parse at commit, the manager
resets to idle, reports an error, leaves the store untouched, persists
nothing and never invokes the calendar. -/
theorem c6_unparseable_commit_resets (pending : PendingMeeting) (resolved : List Contact)
    (st : MeetingStore) (cal : CalResult) (smtp mid tid now : String)
    (h : parseYMDHM (pending.date ++ " " ++ pending.time) = none) :
    (execute_scheduling pending resolved st cal smtp mid tid now).state = "idle" ∧
    (execute_scheduling pending resolved st cal smtp mid tid now).pending = {} ∧
    (execute_scheduling pending resolved st cal smtp mid tid now).resolved_participants = [] ∧
    (execute_scheduling pending resolved st cal smtp mid tid now).action = "error" ∧
    (execute_scheduling pending resolved st cal smtp mid tid now).store = st ∧
    (execute_scheduling pending resolved st cal smtp mid tid now).record = none ∧
    (execute_scheduling pending resolved st cal smtp mid tid now).calendarCalled = false := by
  simp [execute_scheduling, h]

theorem c6_witness :
    parseYMDHM (({} : PendingMeeting).date ++ " " ++ ({} : PendingMeeting).time) = none ∧
    (execute_scheduling {} [] {} {} "" "m" "t" "n").action = "error" ∧
    (execute_scheduling {} [] {} {} "" "m" "t" "n").store = ({} : MeetingStore) ∧
    (execute_scheduling {} [] {} {} "" "m" "t" "n").calendarCalled = false :=
  ⟨by rfl,
   (c6_unparseable_commit_resets {} [] {} {} "" "m" "t" "n" (by rfl)).2.2.2.1,
   (c6_unparseable_commit_resets {} [] {} {} "" "m" "t" "n" (by rfl)).2.2.2.2.1,
   (c6_unparseable_commit_resets {} [] {} {} "" "m" "t" "n" (by rfl)).2.2.2.2.2.2⟩

/-- C5: when the draft parses but the calendar collaborator reports
failure, the commit still appends a record with status scheduled via the
ledger, and the response message opens with the calendar-failure notice
rather than the full-success one. -/
theorem c5_calendar_failure_still_persists (pending : PendingMeeting)
    (resolved : List Contact) (st : MeetingStore) (cal : CalResult)
    (smtp mid tid now : String) (y mo d h mi : Nat)
    (hp : parseYMDHM (pending.date ++ " " ++ pending.time) = some (y, mo, d, h, mi))
    (hf : cal.success = false) :
    ∃ rec, (execute_scheduling pending resolved st cal smtp mid tid now).record = some rec ∧
      (execute_scheduling pending resolved st cal smtp mid tid now).store.meetings =
        st.meetings ++ [rec] ∧
      rec.status = "scheduled" ∧
      (execute_scheduling pending resolved st cal smtp mid tid now).action = "scheduled" ∧
      leadAgrees "Meeting recorded locally but calendar invite could not be sent."
        (execute_scheduling pending resolved st cal smtp mid tid now).message = true ∧
      leadAgrees "Meeting scheduled successfully!"
        (execute_scheduling pending resolved st cal smtp mid tid now).message = false := by
  have hmsg : (execute_scheduling pending resolved st cal smtp mid tid now).message =
      pyJoin "\n" (["Meeting recorded locally but calendar invite could not be sent.",
         "Error: " ++ cal.error.getD "Unknown",
         "\n**" ++ pending.title ++ "**",
         "**Date:** " ++ fmtADY y mo d,
         "**Time:** " ++ fmtIMp h mi ++ " (" ++ toString pending.duration_minutes ++ " minutes)",
         "**Participants:** " ++ pyJoin ", " (resolved.map fun p => p.name)]) := by
    simp [execute_scheduling, hp, hf]
  have hlead : leadAgrees "Meeting recorded locally but calendar invite could not be sent."
      (execute_scheduling pending resolved st cal smtp mid tid now).message = true := by
    rw [hmsg]
    rcases pyJoin_head_lead "\n"
      "Meeting recorded locally but calendar invite could not be sent." _ with ⟨t, ht⟩
    rw [ht]
    exact leadAgrees_append _ _
  refine ⟨(add_meeting st
      { title := pending.title
        date := pending.date
        time := pending.time
        duration_minutes := pending.duration_minutes
        participants := resolved.map fun p => p.name
        participant_emails := get_emails_for_contacts resolved
        description := pending.description
        calendar_event_id := cal.event_id
        calendar_event_link := cal.html_link }
      (if pending.is_followup then pending.followup_reference else "")
      mid tid now).2, ?_, ?_, ?_, ?_, hlead, ?_⟩
  · simp [execute_scheduling, hp, hf]
  · simp [execute_scheduling, hp, hf, add_meeting]
  · rfl
  · simp [execute_scheduling, hp, hf]
  · by_contra hx
    have hsucc : leadAgrees "Meeting scheduled successfully!"
        (execute_scheduling pending resolved st cal smtp mid tid now).message = true := by
      revert hx
      cases leadAgrees "Meeting scheduled successfully!"
        (execute_scheduling pending resolved st cal smtp mid tid now).message
      · intro hx; exact absurd rfl hx
      · intro _; rfl
    rcases leadAgreesL_total _ _ _ hlead hsucc with hc | hc
    · exact absurd hc (by decide)
    · exact absurd hc (by decide)

def c5w_pending : PendingMeeting :=
  { title := "Sync", date := "2025-03-10", time := "10:00", duration_minutes := 45 }

def c5w_contact : Contact := { id := "c1", name := "Ana Roy", email := "ana@x.com" }

def c5w_st : MeetingStore := { user_email := "a@x" }

def c5w_cal : CalResult := { success := false, error := some "quota exceeded" }

theorem c5_witness :
    ∃ rec, (execute_scheduling c5w_pending [c5w_contact] c5w_st c5w_cal "o@x"
        "mtg_1" "th_1" "2025-01-01T00:00:00").record = some rec ∧
      (execute_scheduling c5w_pending [c5w_contact] c5w_st c5w_cal "o@x"
        "mtg_1" "th_1" "2025-01-01T00:00:00").store.meetings = c5w_st.meetings ++ [rec] ∧
      rec.status = "scheduled" ∧
      (execute_scheduling c5w_pending [c5w_contact] c5w_st c5w_cal "o@x"
        "mtg_1" "th_1" "2025-01-01T00:00:00").action = "scheduled" ∧
      leadAgrees "Meeting recorded locally but calendar invite could not be sent."
        (execute_scheduling c5w_pending [c5w_contact] c5w_st c5w_cal "o@x"
          "mtg_1" "th_1" "2025-01-01T00:00:00").message = true ∧
      leadAgrees "Meeting scheduled successfully!"
        (execute_scheduling c5w_pending [c5w_contact] c5w_st c5w_cal "o@x"
          "mtg_1" "th_1" "2025-01-01T00:00:00").message = false :=
  c5_calendar_failure_still_persists c5w_pending [c5w_contact] c5w_st c5w_cal "o@x"
    "mtg_1" "th_1" "2025-01-01T00:00:00" 2025 3 10 10 0 (by rfl) (by rfl)

/-- C7: a remove-attendees request whose removal hints match none of the
found meeting's participants is answered with the error reply, the store
is left unchanged and the calendar is not touched. -/
theorem c7_noop_remove_unchanged (refP remP : List RawParticipant) (st : MeetingStore)
    (calAuth : Bool) (u : CalResult) (meeting : MeetingRecord)
    (htr : ((remP.filter fun p => !(p.name == "")).map fun p => pyLower (pyStrip p.name)) ≠ [])
    (hfound : find_meeting_by_hints
        ((refP.filter fun p => !(p.name == "")).map fun p => pyLower (pyStrip p.name))
        ((visibleMeetings st).filter fun m => m.status == "scheduled") = some meeting)
    (hnomatch : ∀ p ∈ meeting.participants,
      name_matches_any p
        ((remP.filter fun p => !(p.name == "")).map fun p => pyLower (pyStrip p.name)) = false) :
    (handle_remove_attendees refP remP st calAuth u).store = st ∧
    (handle_remove_attendees refP remP st calAuth u).action = "chat" ∧
    (handle_remove_attendees refP remP st calAuth u).calendarCalled = false := by
  have hsch : ((visibleMeetings st).filter fun m => m.status == "scheduled").isEmpty = false := by
    cases h : ((visibleMeetings st).filter fun m => m.status == "scheduled").isEmpty
    · rfl
    · rw [List.isEmpty_iff] at h
      rw [find_meeting_by_hints] at hfound
      simp [h] at hfound
  have htr' : ((remP.filter fun p => !(p.name == "")).map
      fun p => pyLower (pyStrip p.name)).isEmpty = false := by
    cases h : ((remP.filter fun p => !(p.name == "")).map
        fun p => pyLower (pyStrip p.name)).isEmpty
    · rfl
    · rw [List.isEmpty_iff] at h
      exact absurd h htr
  have hkeep : (removeKeepLists meeting.participants meeting.participant_emails
      ((remP.filter fun p => !(p.name == "")).map fun p => pyLower (pyStrip p.name))).1 =
      meeting.participants := by
    simp only [removeKeepLists]
    exact filter_eq_self_of_none _ _ hnomatch
  simp only [handle_remove_attendees, htr', hsch, hfound, hkeep, Bool.false_eq_true,
    if_false, ge_iff_le, le_refl, if_true]
  exact ⟨trivial, trivial, trivial⟩

def c7w_meeting : MeetingRecord :=
  { id := "m2", user_email := "a@x", title := "Sync", participants := ["Priya Kapoor"]
    participant_emails := ["priya@x.com"], status := "scheduled", created_at := "t2" }

def c7w_st : MeetingStore := { user_email := "a@x", meetings := [c7w_meeting] }

theorem c7_witness :
    (handle_remove_attendees [{ name := "Priya" }] [{ name := "John" }] c7w_st false {}).store
      = c7w_st ∧
    (handle_remove_attendees [{ name := "Priya" }] [{ name := "John" }] c7w_st false {}).action
      = "chat" ∧
    (handle_remove_attendees [{ name := "Priya" }] [{ name := "John" }] c7w_st false
      {}).calendarCalled = false :=
  c7_noop_remove_unchanged [{ name := "Priya" }] [{ name := "John" }] c7w_st false {}
    c7w_meeting (by decide) (by rfl) (by decide)

def c1x_m : MeetingRecord :=
  { id := "m1", user_email := "bob@x", date := "2025-03-10", time := "10:00"
    duration_minutes := 45, status := "scheduled", created_at := "t1" }

def c1x_st : MeetingStore :=
  { user_email := "alice@x", is_admin := true, meetings := [c1x_m] }

/-- C1 counterexample: on an admin store the conflict query returns a
meeting that does not belong to the same owner as the store's user, so
the same-owner clause of the claim fails for that store. -/
theorem c1_counterexample :
    get_conflicting_meetings c1x_st "2025-03-10" "10:30" 45 none = [c1x_m] ∧
    c1x_m.user_email ≠ c1x_st.user_email := by
  constructor
  · rfl
  · decide

def c1s_m : MeetingRecord :=
  { id := "m1", user_email := "a@x", date := "2025-03-10", time := "10:00"
    duration_minutes := 45, status := "scheduled", created_at := "t1" }

def c1s_st : MeetingStore :=
  { user_email := "a@x", is_admin := false, meetings := [c1s_m] }

/-- C1 (amended): on a non-admin store with a set user email, the
conflict query returns exactly the stored meetings that are
non-cancelled, same-owner, not the truthy excluded id, parseable and
overlapping under the half-open test; and the concrete scenario holds:
a 10:00-10:45 meeting conflicts with a 10:30-11:15 slot of the same
owner but not with a back-to-back 10:45-11:30 slot. -/
theorem c1_conflicts_characterization :
    (∀ (st : MeetingStore) (date_str time_str : String) (dur : Int) (ex : Option String)
       (m : MeetingRecord),
      st.is_admin = false → st.user_email ≠ "" →
      (m ∈ get_conflicting_meetings st date_str time_str dur ex ↔
        ∃ sn en se ee,
          parse_meeting_datetime date_str time_str dur = some (sn, en) ∧
          m ∈ st.meetings ∧ m.user_email = st.user_email ∧
          m.status ≠ "cancelled" ∧
          ¬(exTruthy ex = true ∧ m.id = ex.getD "") ∧
          parse_meeting_datetime m.date m.time m.duration_minutes = some (se, ee) ∧
          sn < ee ∧ en > se)) ∧
    get_conflicting_meetings c1s_st "2025-03-10" "10:30" 45 none = [c1s_m] ∧
    get_conflicting_meetings c1s_st "2025-03-10" "10:45" 45 none = [] := by
  refine ⟨?_, by rfl, by rfl⟩
  intro st date_str time_str dur ex m hadmin hemail
  have hemail' : (st.user_email == "") = false := by
    simp [hemail]
  have hvis : visibleMeetings st =
      st.meetings.filter (fun x => x.user_email == st.user_email) := by
    rw [visibleMeetings, filter_by_user, hadmin, hemail']
    simp
  cases hp : parse_meeting_datetime date_str time_str dur with
  | none =>
    simp [get_conflicting_meetings, hp]
  | some p =>
    obtain ⟨sn, en⟩ := p
    simp only [get_conflicting_meetings, hp, hvis, List.mem_filter]
    constructor
    · rintro ⟨⟨hm, howner⟩, hov⟩
      by_cases hstat : (m.status == "cancelled") = true
      · rw [if_pos hstat] at hov
        cases hov
      · rw [if_neg hstat] at hov
        by_cases hexb : (exTruthy ex && m.id == ex.getD "") = true
        · rw [if_pos hexb] at hov
          cases hov
        · rw [if_neg hexb] at hov
          cases hpe : parse_meeting_datetime m.date m.time m.duration_minutes with
          | none =>
            rw [hpe] at hov
            cases hov
          | some q =>
            obtain ⟨se, ee⟩ := q
            rw [hpe] at hov
            simp only [Bool.and_eq_true, decide_eq_true_eq] at hov
            refine ⟨sn, en, se, ee, rfl, hm, by simpa using howner, by simpa using hstat,
              ?_, rfl, hov.1, hov.2⟩
            intro hc
            apply hexb
            rw [hc.1]
            simp [hc.2]
    · rintro ⟨sn', en', se, ee, hps, hm, howner, hstat, hex, hpe, h1, h2⟩
      simp only [Option.some.injEq, Prod.mk.injEq] at hps
      obtain ⟨rfl, rfl⟩ := hps
      refine ⟨⟨hm, by simp [howner]⟩, ?_⟩
      rw [if_neg (by simpa using hstat)]
      have hexb : (exTruthy ex && m.id == ex.getD "") = false := by
        cases hext : exTruthy ex
        · simp
        · have hne : ¬ m.id = ex.getD "" := fun hc => hex ⟨hext, hc⟩
          simp [hne]
      rw [if_neg (by simp [hexb])]
      rw [hpe]
      simp [h1, h2]

def c1w_m2 : MeetingRecord :=
  { id := "m9", user_email := "other@x", date := "2025-03-10", time := "10:00"
    duration_minutes := 45, status := "scheduled", created_at := "t0" }

def c1w_st : MeetingStore :=
  { user_email := "a@x", is_admin := false, meetings := [c1s_m, c1w_m2] }

theorem c1_witness :
    c1w_st.is_admin = false ∧ c1w_st.user_email ≠ "" ∧
    (c1s_m ∈ get_conflicting_meetings c1w_st "2025-03-10" "10:30" 45 none ↔
      ∃ sn en se ee,
        parse_meeting_datetime "2025-03-10" "10:30" 45 = some (sn, en) ∧
        c1s_m ∈ c1w_st.meetings ∧ c1s_m.user_email = c1w_st.user_email ∧
        c1s_m.status ≠ "cancelled" ∧
        ¬(exTruthy none = true ∧ c1s_m.id = (none : Option String).getD "") ∧
        parse_meeting_datetime c1s_m.date c1s_m.time c1s_m.duration_minutes = some (se, ee) ∧
        sn < ee ∧ en > se) :=
  ⟨rfl, by decide,
   c1_conflicts_characterization.1 c1w_st "2025-03-10" "10:30" 45 none c1s_m rfl (by decide)⟩

def c2x_ab : AddressBook := { contacts := [{ id := "z1", name := " " }] }

/-- C2 counterexample: on a directory holding a contact whose name has
no whitespace token (a state add_contact accepts), resolving a name that
misses the exact tier raises (the source indexes split()[0]) instead of
following tiers (b)-(e) of the precedence, which would return the
possibly empty first-name matches. -/
theorem c2_counterexample :
    find_by_exact_name c2x_ab "Bob" = none ∧
    resolve_participant c2x_ab "Bob" none = .error () := by
  exact ⟨by rfl, by rfl⟩

/-- Specification-side statement of the tiered resolution precedence,
written from the claim: (a) an exact full-name match short-circuits;
(b) department-filtered first-name matches when a hint is given and the
subset is non-empty; (c) a unique first-name match; (d) department-
filtered substring matches when a hint is given and the subset is
non-empty; (e) substring matches if any, else the first-name matches. -/
def resolveTiersSpec (exact : Option Contact) (fnm part : List Contact)
    (department : Option String) : List Contact :=
  match exact with
  | some c => [c]
  | none =>
    let dl := pyLower (pyStrip (department.getD ""))
    let fnmDept := fnm.filter fun c => pyLower c.department == dl
    let partDept := part.filter fun c => pyLower c.department == dl
    if deptTruthy department = true ∧ fnmDept ≠ [] then fnmDept
    else if fnm.length = 1 then fnm
    else if deptTruthy department = true ∧ partDept ≠ [] then partDept
    else if part ≠ [] then part
    else fnm

/-- C2 (amended): resolve_participant follows exactly the five-tier
precedence of the specification whenever the first-name collection
evaluates without raising, which holds on every directory whose contact
names each contain a token. -/
theorem c2_resolve_precedence (ab : AddressBook) (name : String) (department : Option String)
    (fnm : List Contact) (hfnm : find_by_first_name ab name = .ok fnm) :
    resolve_participant ab name department =
      .ok (resolveTiersSpec (find_by_exact_name ab name) fnm (find_by_name ab name) department) := by
  cases hex : find_by_exact_name ab name with
  | some c => simp [resolve_participant, resolveTiersSpec, hex]
  | none =>
    simp only [resolve_participant, resolveTiersSpec, hex, hfnm, Bind.bind, Except.bind]
    cases hdt : deptTruthy department with
    | false =>
      simp only [Bool.false_and, Bool.false_eq_true, false_and, if_false]
      by_cases hlen : fnm.length = 1
      · simp [hlen]
      · simp only [hlen, if_false, if_neg hlen]
        by_cases hpe : (find_by_name ab name) = []
        · simp [hpe]
        · simp [hpe, List.isEmpty_iff]
    | true =>
      by_cases hfd : (fnm.filter fun c =>
          pyLower c.department == pyLower (pyStrip (department.getD ""))) = []
      · simp only [hdt, hfd, List.isEmpty_nil, Bool.not_true, Bool.and_false,
          Bool.false_eq_true, if_false, ne_eq, not_true_eq_false, and_false, true_and]
        by_cases hlen : fnm.length = 1
        · simp [hlen]
        · simp only [hlen, if_false, if_neg hlen]
          by_cases hpd : ((find_by_name ab name).filter fun c =>
              pyLower c.department == pyLower (pyStrip (department.getD ""))) = []
          · simp only [hpd, List.isEmpty_nil, Bool.not_true, Bool.and_false,
              Bool.false_eq_true, if_false, ne_eq, not_true_eq_false, and_false, true_and]
            by_cases hpe : (find_by_name ab name) = []
            · simp [hpe]
            · simp [hpe, List.isEmpty_iff]
          · simp [hpd, List.isEmpty_iff]
      · simp [hfd, List.isEmpty_iff]

def c2w_s1 : Contact := { id := "c3", name := "Sam Jones", email := "s3@x.com", department := "Sales" }

def c2w_s2 : Contact := { id := "c4", name := "Sam Jones", email := "s4@x.com", department := "Tech" }

def c2w_ab : AddressBook := { contacts := [c2w_s1, c2w_s2] }

theorem c2_witness :
    find_by_first_name c2w_ab "Sam" = .ok [c2w_s1, c2w_s2] ∧
    resolve_participant c2w_ab "Sam" (some "Tech") =
      .ok (resolveTiersSpec (find_by_exact_name c2w_ab "Sam") [c2w_s1, c2w_s2]
        (find_by_name c2w_ab "Sam") (some "Tech")) :=
  ⟨by rfl, c2_resolve_precedence c2w_ab "Sam" (some "Tech") [c2w_s1, c2w_s2] (by rfl)⟩

def c3x_sales : Contact := { id := "c1", name := "Sam", email := "s1@x.com", department := "Sales" }

def c3x_tech : Contact := { id := "c2", name := "Sam", email := "s2@x.com", department := "Tech" }

def c3x_ab : AddressBook := { contacts := [c3x_sales, c3x_tech] }

def c3x_j1 : Contact := { id := "e1", name := "Sam Jones", email := "e1@x.com", department := "Sales" }

def c3x_j2 : Contact := { id := "e2", name := "Sam Jones", email := "e2@x.com", department := "Tech" }

def c3x_bad : Contact := { id := "e3", name := " " }

def c3x_ab2 : AddressBook := { contacts := [c3x_j1, c3x_j2, c3x_bad] }

/-- C3 counterexample, in two parts.  First: two contacts share the full
name Sam in different departments, yet resolving Sam with the department
hint Tech returns the Sales contact, because the exact-name tier
short-circuits before the department filter when the first name
coincides with a full name.  Second: with two identically named Sam
Jones contacts in different departments plus a third contact whose name
has no token, the same call raises (the source indexes split()[0])
instead of returning the hinted department's contacts. -/
theorem c3_counterexample :
    (c3x_sales.name = c3x_tech.name ∧
     c3x_sales.department ≠ c3x_tech.department ∧
     resolve_participant c3x_ab "Sam" (some "Tech") = .ok [c3x_sales] ∧
     c3x_sales.department ≠ "Tech") ∧
    (c3x_j1.name = c3x_j2.name ∧
     c3x_j1.department ≠ c3x_j2.department ∧
     resolve_participant c3x_ab2 "Sam" (some "Tech") = .error ()) := by
  refine ⟨⟨rfl, by decide, by rfl, by decide⟩, ⟨rfl, by decide, by rfl⟩⟩

/-- Membership in a successful first-name lookup is membership in the
directory together with agreement of the first name token. -/
theorem find_by_first_name_go_mem (fn : String) (l : List Contact) (res : List Contact)
    (h : find_by_first_name_go fn l = .ok res) (c : Contact) :
    c ∈ res ↔ c ∈ l ∧ firstTok (pyLower c.name) = some fn := by
  induction l generalizing res with
  | nil =>
    simp only [find_by_first_name_go, Except.ok.injEq] at h
    subst h
    simp
  | cons a as ih =>
    cases hft : firstTok (pyLower a.name) with
    | none => rw [find_by_first_name_go, hft] at h; cases h
    | some t =>
      rw [find_by_first_name_go, hft] at h
      cases hgo : find_by_first_name_go fn as with
      | error e => rw [hgo] at h; cases h
      | ok rest =>
        rw [hgo] at h
        simp only [Bind.bind, Except.bind, Except.ok.injEq] at h
        subst h
        by_cases ht : (t == fn) = true
        · simp only [ht, if_true, List.mem_cons]
          constructor
          · rintro (rfl | hc)
            · exact ⟨Or.inl rfl, by rw [hft]; simpa using ht⟩
            · have := (ih rest hgo).mp hc
              exact ⟨Or.inr this.1, this.2⟩
          · rintro ⟨rfl | hmem', htok⟩
            · exact Or.inl rfl
            · exact Or.inr ((ih rest hgo).mpr ⟨hmem', htok⟩)
        · simp only [ht, if_false, List.mem_cons]
          constructor
          · intro hc
            have := (ih rest hgo).mp hc
            exact ⟨Or.inr this.1, this.2⟩
          · rintro ⟨rfl | hmem', htok⟩
            · rw [hft] at htok
              simp at htok
              exact absurd (by simp [htok]) ht
            · exact (ih rest hgo).mpr ⟨hmem', htok⟩

/-- C3 (amended): when the queried first name does not coincide with any
full name (the exact tier does not fire) and the first-name collection
evaluates without raising (no contact name is token-less), resolving two
identically named contacts of different departments with a department
hint returns exactly the first-name matches of the hinted department,
all of which lie in it. -/
theorem c3_dept_hint_filters (ab : AddressBook) (n d : String) (fnm : List Contact)
    (c₁ c₂ : Contact)
    (h₁ : c₁ ∈ ab.contacts) (h₂ : c₂ ∈ ab.contacts)
    (hname : c₁.name = c₂.name)
    (hdep : pyLower c₁.department ≠ pyLower c₂.department)
    (htok : firstTok (pyLower c₁.name) = some (pyLower (pyStrip n)))
    (hc₁d : pyLower c₁.department = pyLower (pyStrip d))
    (hd : d ≠ "")
    (hex : find_by_exact_name ab n = none)
    (hfnm : find_by_first_name ab n = .ok fnm) :
    resolve_participant ab n (some d) =
      .ok (fnm.filter fun c => pyLower c.department == pyLower (pyStrip d)) ∧
    (∀ c ∈ fnm.filter (fun c => pyLower c.department == pyLower (pyStrip d)),
      pyLower c.department = pyLower (pyStrip d)) ∧
    c₁ ∈ fnm.filter (fun c => pyLower c.department == pyLower (pyStrip d)) := by
  have hc₁fnm : c₁ ∈ fnm :=
    (find_by_first_name_go_mem (pyLower (pyStrip n)) ab.contacts fnm hfnm c₁).mpr ⟨h₁, htok⟩
  have hc₁filt : c₁ ∈ fnm.filter (fun c => pyLower c.department == pyLower (pyStrip d)) :=
    List.mem_filter.mpr ⟨hc₁fnm, by simp [hc₁d]⟩
  have hne : (fnm.filter fun c => pyLower c.department == pyLower (pyStrip d)) ≠ [] :=
    List.ne_nil_of_mem hc₁filt
  refine ⟨?_, ?_, hc₁filt⟩
  · simp only [resolve_participant, hex, hfnm, Bind.bind, Except.bind, Option.getD]
    rw [if_pos]
    simp only [deptTruthy, Bool.and_eq_true, Bool.not_eq_true']
    constructor
    · simp [hd]
    · simp [List.isEmpty_iff, hne]
  · intro c hc
    have := List.mem_filter.mp hc
    simpa using this.2

def c3w_s1 : Contact := { id := "d1", name := "Sam Jones", email := "d1@x.com", department := "Sales" }

def c3w_s2 : Contact := { id := "d2", name := "Sam Jones", email := "d2@x.com", department := "Tech" }

def c3w_ab : AddressBook := { contacts := [c3w_s1, c3w_s2] }

theorem c3_witness :
    resolve_participant c3w_ab "Sam" (some "Tech") =
      .ok ([c3w_s1, c3w_s2].filter fun c => pyLower c.department == pyLower (pyStrip "Tech")) ∧
    (∀ c ∈ [c3w_s1, c3w_s2].filter (fun c => pyLower c.department == pyLower (pyStrip "Tech")),
      pyLower c.department = pyLower (pyStrip "Tech")) ∧
    c3w_s2 ∈ [c3w_s1, c3w_s2].filter (fun c => pyLower c.department == pyLower (pyStrip "Tech")) :=
  c3_dept_hint_filters c3w_ab "Sam" "Tech" [c3w_s1, c3w_s2] c3w_s2 c3w_s1
    (by decide) (by decide) (by rfl) (by decide) (by rfl) (by rfl) (by decide)
    (by rfl) (by rfl)

def c9x_ab : AddressBook := { contacts := [{ id := "c0", name := "" }] }

/-- C9 counterexample: on a directory holding a contact with an empty
name, the first-name lookup raises (the source indexes split()[0] of the
empty name) even though no contact matches the query, instead of
returning the empty list. -/
theorem c9_counterexample :
    find_by_first_name c9x_ab "Bob" = .error () ∧
    find_by_exact_name c9x_ab "Bob" = none := by
  exact ⟨by rfl, by rfl⟩

theorem find_by_first_name_go_nomatch (fn : String) (l : List Contact)
    (h : ∀ c ∈ l, ∃ t, firstTok (pyLower c.name) = some t ∧ t ≠ fn) :
    find_by_first_name_go fn l = .ok [] := by
  induction l with
  | nil => rfl
  | cons a as ih =>
    obtain ⟨t, hft, hne⟩ := h a (by simp)
    rw [find_by_first_name_go, hft, ih fun c hc => h c (by simp [hc])]
    simp [Bind.bind, Except.bind, hne]

/-- C9 (amended): on directories whose contact names all have a first
token, the lookups return none or the empty list when nothing matches
(and the single-result and list lookups other than the first-name one
are total on every directory); with a token-less contact name the
first-name lookup raises instead. -/
theorem c9_lookup_totality :
    (∀ (ab : AddressBook) (q : String),
      (∀ c ∈ ab.contacts, pyLower c.name ≠ pyLower (pyStrip q)) →
      find_by_exact_name ab q = none) ∧
    (∀ (ab : AddressBook) (q : String),
      (∀ c ∈ ab.contacts, pyLower c.email ≠ pyLower (pyStrip q)) →
      find_by_email ab q = none) ∧
    (∀ (ab : AddressBook) (q : String),
      (∀ c ∈ ab.contacts, c.id ≠ q) → find_by_id ab q = none) ∧
    (∀ (ab : AddressBook) (q : String),
      (∀ c ∈ ab.contacts, ∃ t, firstTok (pyLower c.name) = some t ∧ t ≠ pyLower (pyStrip q)) →
      find_by_first_name ab q = .ok []) ∧
    (∀ (ab : AddressBook) (q : String),
      (∀ c ∈ ab.contacts, pyLower c.department ≠ pyLower (pyStrip q)) →
      find_by_department ab q = []) ∧
    (∀ (ab : AddressBook) (q : String),
      (∀ c ∈ ab.contacts, strHas (pyLower c.name) (pyLower (pyStrip q)) = false) →
      find_by_name ab q = []) ∧
    (∀ (ab : AddressBook) (q : String),
      (∀ c ∈ ab.contacts, strHas (pyLower c.name) (pyLower (pyStrip q)) = false ∧
        strHas (pyLower c.email) (pyLower (pyStrip q)) = false ∧
        strHas (pyLower c.department) (pyLower (pyStrip q)) = false ∧
        strHas (pyLower c.role) (pyLower (pyStrip q)) = false) →
      searchContacts ab q = []) := by
  refine ⟨?_, ?_, ?_, ?_, ?_, ?_, ?_⟩
  · intro ab q h
    rw [find_by_exact_name, List.find?_eq_none]
    intro c hc
    simp [h c hc]
  · intro ab q h
    rw [find_by_email, List.find?_eq_none]
    intro c hc
    simp [h c hc]
  · intro ab q h
    rw [find_by_id, List.find?_eq_none]
    intro c hc
    simp [h c hc]
  · intro ab q h
    exact find_by_first_name_go_nomatch _ _ h
  · intro ab q h
    rw [find_by_department, List.filter_eq_nil_iff]
    intro c hc
    simp [h c hc]
  · intro ab q h
    rw [find_by_name, List.filter_eq_nil_iff]
    intro c hc
    simp [h c hc]
  · intro ab q h
    rw [searchContacts, List.filter_eq_nil_iff]
    intro c hc
    simp [(h c hc).1, (h c hc).2.1, (h c hc).2.2.1, (h c hc).2.2.2]

def c9w_ab : AddressBook :=
  { contacts := [{ id := "c1", name := "Bob Smith", email := "bob@x.com"
                   department := "Eng", role := "dev" }] }

theorem c9_witness :
    find_by_exact_name c9w_ab "zzz" = none ∧
    find_by_email c9w_ab "zzz" = none ∧
    find_by_id c9w_ab "zzz" = none ∧
    find_by_first_name c9w_ab "zzz" = .ok [] ∧
    find_by_department c9w_ab "zzz" = [] ∧
    find_by_name c9w_ab "zzz" = [] ∧
    searchContacts c9w_ab "zzz" = [] :=
  ⟨c9_lookup_totality.1 c9w_ab "zzz" (by decide),
   c9_lookup_totality.2.1 c9w_ab "zzz" (by decide),
   c9_lookup_totality.2.2.1 c9w_ab "zzz" (by decide),
   c9_lookup_totality.2.2.2.1 c9w_ab "zzz" (by
     intro c hc
     simp only [c9w_ab, List.mem_singleton] at hc
     subst hc
     exact ⟨"bob", by rfl, by decide⟩),
   c9_lookup_totality.2.2.2.2.1 c9w_ab "zzz" (by decide),
   c9_lookup_totality.2.2.2.2.2.1 c9w_ab "zzz" (by decide),
   c9_lookup_totality.2.2.2.2.2.2 c9w_ab "zzz" (by decide)⟩

theorem dedupByIdGo_eq_keepFirsts (l : List Contact) :
    ∀ seen, dedupByIdGo seen l = keepFirsts (l.filter fun c => !(seen.contains c.id)) := by
  induction l with
  | nil => intro seen; simp [dedupByIdGo, keepFirsts]
  | cons r rs ih =>
    intro seen
    by_cases hs : seen.contains r.id = true
    · rw [dedupByIdGo, if_pos hs, List.filter_cons]
      simp only [hs, Bool.not_true, Bool.false_eq_true, if_false]
      exact ih seen
    · have hs' : seen.contains r.id = false := by
        cases h : seen.contains r.id
        · rfl
        · exact absurd h hs
      rw [dedupByIdGo, if_neg hs, List.filter_cons]
      simp only [hs', Bool.not_false, if_true]
      rw [keepFirsts, ih (r.id :: seen), List.filter_filter]
      congr 1
      apply congrArg keepFirsts
      apply List.filter_congr
      intro c _
      simp only [List.contains_cons, Bool.not_or]

theorem dedupByIdGo_nodup (l : List Contact) :
    ∀ seen, ((dedupByIdGo seen l).map fun c => c.id).Nodup ∧
      ∀ x ∈ (dedupByIdGo seen l).map fun c => c.id, seen.contains x = false := by
  induction l with
  | nil => intro seen; simp [dedupByIdGo]
  | cons r rs ih =>
    intro seen
    by_cases hs : seen.contains r.id = true
    · rw [dedupByIdGo, if_pos hs]
      exact ih seen
    · have hs' : seen.contains r.id = false := by
        cases h : seen.contains r.id
        · rfl
        · exact absurd h hs
      rw [dedupByIdGo, if_neg hs]
      obtain ⟨hnd, hdis⟩ := ih (r.id :: seen)
      refine ⟨?_, ?_⟩
      · rw [List.map_cons, List.nodup_cons]
        refine ⟨?_, hnd⟩
        intro hmem
        have := hdis r.id hmem
        simp [List.contains_cons] at this
      · intro x hx
        rw [List.map_cons, List.mem_cons] at hx
        rcases hx with rfl | hx'
        · exact hs'
        · have := hdis x hx'
          simp only [List.contains_cons, Bool.or_eq_false_iff] at this
          exact this.2

/-- C10: a successful participant resolution deduplicates by contact id:
the resolved list is the keep-first-occurrence reduction of the raw
accumulated list, and no two entries share an id. -/
theorem c10_resolution_dedup (ab : AddressBook) (raw : List RawParticipant)
    (s : ResolveLoopState) (res : ResolveResult)
    (hloop : resolveLoop ab {} raw = .ok s)
    (hres : resolve_all_participants ab raw = .ok res) :
    res.resolved = keepFirsts s.resolved ∧
    (res.resolved.map fun c => c.id).Nodup := by
  rw [resolve_all_participants, hloop] at hres
  simp only [Bind.bind, Except.bind, Except.ok.injEq] at hres
  subst hres
  constructor
  · show dedupById s.resolved = keepFirsts s.resolved
    rw [dedupById, dedupByIdGo_eq_keepFirsts]
    congr 1
    have : ∀ c : Contact, (([] : List String).contains c.id) = false := fun _ => rfl
    simp [this]
  · exact (dedupByIdGo_nodup s.resolved []).1

def c10w_c : Contact := { id := "c6", name := "Bo Li", email := "b@x.com", department := "Tech" }

def c10w_ab : AddressBook := { contacts := [c10w_c] }

def c10w_raw : List RawParticipant := [{ name := "Bo" }, { name := "Bo Li" }]

def c10w_s : ResolveLoopState := { resolved := [c10w_c, c10w_c] }

def c10w_res : ResolveResult := { resolved := [c10w_c] }

theorem c10_witness :
    resolveLoop c10w_ab {} c10w_raw = .ok c10w_s ∧
    resolve_all_participants c10w_ab c10w_raw = .ok c10w_res ∧
    (c10w_res.resolved = keepFirsts c10w_s.resolved ∧
      (c10w_res.resolved.map fun c => c.id).Nodup) :=
  ⟨by rfl, by rfl, c10_resolution_dedup c10w_ab c10w_raw c10w_s c10w_res (by rfl) (by rfl)⟩

def c4x_contact : Contact := { id := "c5", name := "Ana" }

def c4x_pending : PendingMeeting :=
  { title := "T", date := "2025-03-10", time := "10:00", duration_minutes := 45 }

def c4x_st : MeetingStore := { user_email := "a@x" }

def c4x_mail : Contact := { id := "c6", name := "Ben", email := "ben@x.com" }

/-- C4 counterexample, in three parts.  Commit: a resolved participant
without an email yields a record whose arrays have lengths 1 and 0,
because the email collection drops the contact while the name collection
keeps it.  Add flow: adding the email-less Ana together with Ben makes
the zip of the filtered emails with the unfiltered names pair the name
Ana with Ben's email.  Remove flow: with duplicate participant names
Ana, Bob, Ana carrying emails a1, b, a2, removing Bob makes the
name-to-email dict collapse to the last Ana entry and persists the email
a2 twice, so the first Ana is no longer paired with its email a1. -/
theorem c4_counterexample :
    ((execute_scheduling c4x_pending [c4x_contact] c4x_st {} "" "m" "t" "now").record.map
      fun r => (r.participants.length, r.participant_emails.length)) = some (1, 0) ∧
    mergeAttendeesGo [] [] []
      ((get_emails_for_contacts [c4x_contact, c4x_mail]).zip
        ([c4x_contact, c4x_mail].map fun c => c.name)) = (["Ana"], ["ben@x.com"]) ∧
    removeKeepLists ["Ana", "Bob", "Ana"] ["a1@x.com", "b@x.com", "a2@x.com"] ["bob"] =
      (["Ana", "Ana"], ["a2@x.com", "a2@x.com"]) := by
  exact ⟨by rfl, by rfl, by rfl⟩

theorem get_emails_all (ds : List Contact) (h : ∀ d ∈ ds, d.email ≠ "") :
    get_emails_for_contacts ds = ds.map fun d => d.email := by
  rw [get_emails_for_contacts, List.filter_eq_self.mpr]
  intro a ha
  simp [h a ha]

theorem mergeAttendeesGo_aligned (ds : List Contact) :
    ∀ (cs : List Contact) (seen : List String),
      (∀ d ∈ ds, d.email ≠ "") →
      ∃ es : List Contact,
        mergeAttendeesGo (cs.map fun c => c.name) (cs.map fun c => c.email) seen
          (ds.map fun d => (d.email, d.name)) =
        ((cs ++ es).map fun c => c.name, (cs ++ es).map fun c => c.email) := by
  induction ds with
  | nil =>
    intro cs seen _
    exact ⟨[], by simp [mergeAttendeesGo]⟩
  | cons d ds ih =>
    intro cs seen h
    rw [List.map_cons, mergeAttendeesGo]
    by_cases hc : (!(d.email == "") && !(seen.contains (pyLower d.email))) = true
    · rw [if_pos hc]
      obtain ⟨es', heq⟩ := ih (cs ++ [d]) (seen ++ [pyLower d.email])
        (fun x hx => h x (by simp [hx]))
      refine ⟨d :: es', ?_⟩
      have e1 : (cs.map fun c => c.name) ++ [d.name] = (cs ++ [d]).map fun c => c.name := by
        simp
      have e2 : (cs.map fun c => c.email) ++ [d.email] = (cs ++ [d]).map fun c => c.email := by
        simp
      rw [e1, e2, heq]
      simp
    · rw [if_neg hc]
      obtain ⟨es', heq⟩ := ih cs seen (fun x hx => h x (by simp [hx]))
      exact ⟨es', heq⟩

theorem find?_reverse_nodup (al : List (String × String))
    (hnd : (al.map Prod.fst).Nodup) (p : String × String) (hp : p ∈ al) :
    al.reverse.find? (fun q => q.1 == p.1) = some p := by
  induction al with
  | nil => cases hp
  | cons a as ih =>
    rw [List.reverse_cons, List.find?_append]
    rw [List.map_cons, List.nodup_cons] at hnd
    rcases List.mem_cons.mp hp with rfl | hp'
    · have hnone : as.reverse.find? (fun q => q.1 == p.1) = none := by
        rw [List.find?_eq_none]
        intro q hq
        have hmem : q.1 ∈ as.map Prod.fst :=
          List.mem_map_of_mem _ (List.mem_reverse.mp hq)
        simp only [beq_iff_eq]
        intro hqe
        exact hnd.1 (hqe ▸ hmem)
      rw [hnone]
      simp [List.find?]
    · rw [ih hnd.2 hp']
      rfl

theorem lookupLast_nodup (al : List (String × String))
    (hnd : (al.map Prod.fst).Nodup) (p : String × String) (hp : p ∈ al) :
    lookupLast al p.1 = some p.2 := by
  rw [lookupLast, find?_reverse_nodup al hnd p hp]
  rfl

theorem removeKeepLists_aligned (cs : List Contact) (hints : List String)
    (hnd : (cs.map fun c => c.name).Nodup) :
    removeKeepLists (cs.map fun c => c.name) (cs.map fun c => c.email) hints =
      ((cs.filter fun c => !(name_matches_any c.name hints)).map fun c => c.name,
       (cs.filter fun c => !(name_matches_any c.name hints)).map fun c => c.email) := by
  have hzip : (cs.map fun c => c.name).zip (cs.map fun c => c.email) =
      cs.map fun c => (c.name, c.email) :=
    List.zip_map' _ _ _
  have hkeys : ((cs.map fun c => (c.name, c.email)).map Prod.fst) = cs.map fun c => c.name := by
    simp
  have hlookup : ∀ c ∈ cs,
      lookupLast (cs.map fun c => (c.name, c.email)) c.name = some c.email := by
    intro c hc
    exact lookupLast_nodup _ (by rw [hkeys]; exact hnd) (c.name, c.email)
      (List.mem_map_of_mem _ hc)
  have hkn : (cs.map fun c => c.name).filter (fun p => !(name_matches_any p hints)) =
      (cs.filter fun c => !(name_matches_any c.name hints)).map fun c => c.name := by
    rw [List.filter_map]
    rfl
  have hlen : ((cs.map fun c => c.email)).length ≥ ((cs.map fun c => c.name)).length := by
    simp
  have hfmem : ∀ c ∈ cs.filter (fun c => !(name_matches_any c.name hints)), c ∈ cs :=
    fun c hc => (List.mem_filter.mp hc).1
  simp only [removeKeepLists, hkn, if_pos hlen, hzip]
  have hfilter2 : (((cs.filter fun c => !(name_matches_any c.name hints)).map
        fun c => c.name).filter fun n =>
      (lookupLast (cs.map fun c => (c.name, c.email)) n).isSome) =
      (cs.filter fun c => !(name_matches_any c.name hints)).map fun c => c.name := by
    rw [List.filter_eq_self]
    intro n hn
    obtain ⟨c, hc, rfl⟩ := List.mem_map.mp hn
    rw [hlookup c (hfmem c hc)]
    rfl
  rw [hfilter2, List.map_map]
  have hmap2 : ((cs.filter fun c => !(name_matches_any c.name hints)).map
      ((fun n => (lookupLast (cs.map fun c => (c.name, c.email)) n).getD "") ∘
        fun c => c.name)) =
      (cs.filter fun c => !(name_matches_any c.name hints)).map fun c => c.email := by
    apply List.map_congr_left
    intro c hc
    simp only [Function.comp]
    rw [hlookup c (hfmem c hc)]
    rfl
  rw [hmap2]
  simp

theorem get_meeting_append (ue : String) (adm : Bool) (ms : List MeetingRecord)
    (ths : List (String × List String)) (rec : MeetingRecord) (mid : String)
    (hid : rec.id = mid) (howner : rec.user_email = ue)
    (hfresh : ∀ m ∈ ms, m.id ≠ mid) :
    get_meeting { user_email := ue, is_admin := adm, meetings := ms ++ [rec], threads := ths }
      mid = some rec := by
  rw [get_meeting, visibleMeetings, filter_by_user]
  by_cases hc : (adm || (ue == "")) = true
  · rw [if_pos hc, List.find?_append]
    have h1 : ms.find? (fun m => m.id == mid) = none := by
      rw [List.find?_eq_none]
      intro m hm
      simp [hfresh m hm]
    rw [h1]
    simp [List.find?, hid]
  · rw [if_neg hc, List.filter_append]
    have h2 : [rec].filter (fun m => m.user_email == ue) = [rec] := by
      simp [howner]
    rw [h2, List.find?_append]
    have h1 : (ms.filter fun m => m.user_email == ue).find? (fun m => m.id == mid) = none := by
      rw [List.find?_eq_none]
      intro m hm
      simp [hfresh m (List.mem_filter.mp hm).1]
    rw [h1]
    simp [List.find?, hid]

/-- C4 (amended): the participant and email arrays correspond index-wise
whenever the involved contacts have non-empty emails (commit and add
flows) and participant names are distinct (remove flow).  At commit the
created record pairs the resolved names with the resolved emails and is
read back by get_meeting under a fresh id; the add flow's merged lists
and the remove flow's reduced lists are both images of a single contact
list. -/
theorem c4_correspondence :
    (∀ (pending : PendingMeeting) (resolved : List Contact) (st : MeetingStore)
       (cal : CalResult) (smtp mid tid now : String) (y mo d h mi : Nat),
      parseYMDHM (pending.date ++ " " ++ pending.time) = some (y, mo, d, h, mi) →
      (∀ c ∈ resolved, c.email ≠ "") →
      ∃ rec, (execute_scheduling pending resolved st cal smtp mid tid now).record = some rec ∧
        rec.participants = resolved.map (fun c => c.name) ∧
        rec.participant_emails = resolved.map (fun c => c.email) ∧
        rec.participants.length = rec.participant_emails.length ∧
        ((∀ m ∈ st.meetings, m.id ≠ mid) →
          get_meeting (execute_scheduling pending resolved st cal smtp mid tid now).store mid
            = some rec)) ∧
    (∀ (meeting : MeetingRecord) (cs ds : List Contact),
      meeting.participants = cs.map (fun c => c.name) →
      meeting.participant_emails = cs.map (fun c => c.email) →
      (∀ d ∈ ds, d.email ≠ "") →
      ∃ es, mergeAttendeesGo meeting.participants meeting.participant_emails
          (meeting.participant_emails.map pyLower)
          ((get_emails_for_contacts ds).zip (ds.map fun c => c.name)) =
        ((cs ++ es).map fun c => c.name, (cs ++ es).map fun c => c.email)) ∧
    (∀ (meeting : MeetingRecord) (cs : List Contact) (hints : List String),
      meeting.participants = cs.map (fun c => c.name) →
      meeting.participant_emails = cs.map (fun c => c.email) →
      ((cs.map fun c => c.name).Nodup) →
      removeKeepLists meeting.participants meeting.participant_emails hints =
        ((cs.filter fun c => !(name_matches_any c.name hints)).map fun c => c.name,
         (cs.filter fun c => !(name_matches_any c.name hints)).map fun c => c.email)) := by
  refine ⟨?_, ?_, ?_⟩
  · intro pending resolved st cal smtp mid tid now y mo d h mi hp hmail
    refine ⟨(add_meeting st
        { title := pending.title
          date := pending.date
          time := pending.time
          duration_minutes := pending.duration_minutes
          participants := resolved.map fun p => p.name
          participant_emails := get_emails_for_contacts resolved
          description := pending.description
          calendar_event_id := cal.event_id
          calendar_event_link := cal.html_link }
        (if pending.is_followup then pending.followup_reference else "")
        mid tid now).2, ?_, rfl, ?_, ?_, ?_⟩
    · simp [execute_scheduling, hp]
    · exact get_emails_all resolved hmail
    · show (resolved.map fun p => p.name).length = (get_emails_for_contacts resolved).length
      rw [get_emails_all resolved hmail]
      simp
    · intro hfresh
      have hst : (execute_scheduling pending resolved st cal smtp mid tid now).store =
          { user_email := st.user_email, is_admin := st.is_admin
            meetings := st.meetings ++ [(add_meeting st
              { title := pending.title
                date := pending.date
                time := pending.time
                duration_minutes := pending.duration_minutes
                participants := resolved.map fun p => p.name
                participant_emails := get_emails_for_contacts resolved
                description := pending.description
                calendar_event_id := cal.event_id
                calendar_event_link := cal.html_link }
              (if pending.is_followup then pending.followup_reference else "")
              mid tid now).2]
            threads := (add_meeting st
              { title := pending.title
                date := pending.date
                time := pending.time
                duration_minutes := pending.duration_minutes
                participants := resolved.map fun p => p.name
                participant_emails := get_emails_for_contacts resolved
                description := pending.description
                calendar_event_id := cal.event_id
                calendar_event_link := cal.html_link }
              (if pending.is_followup then pending.followup_reference else "")
              mid tid now).1.threads } := by
        simp [execute_scheduling, hp, add_meeting]
      rw [hst]
      exact get_meeting_append st.user_email st.is_admin st.meetings _ _ mid rfl rfl hfresh
  · intro meeting cs ds h1 h2 h3
    rw [h1, h2, get_emails_all ds h3, List.zip_map']
    exact mergeAttendeesGo_aligned ds cs _ h3
  · intro meeting cs hints h1 h2 hnd
    rw [h1, h2]
    exact removeKeepLists_aligned cs hints hnd

def c4w_c1 : Contact := { id := "c1", name := "Ana Roy", email := "ana@x.com" }

def c4w_c2 : Contact := { id := "c2", name := "Ben Ito", email := "ben@x.com" }

def c4w_pending : PendingMeeting :=
  { title := "Sync", date := "2025-03-10", time := "10:00", duration_minutes := 45 }

def c4w_st : MeetingStore := { user_email := "a@x" }

def c4w_meeting : MeetingRecord :=
  { id := "m1", user_email := "a@x", participants := ["Ana Roy"]
    participant_emails := ["ana@x.com"], status := "scheduled" }

theorem c4_witness :
    (∃ rec, (execute_scheduling c4w_pending [c4w_c1] c4w_st {} "" "mtg_1" "th_1" "now").record
        = some rec ∧
      rec.participants = [c4w_c1].map (fun c => c.name) ∧
      rec.participant_emails = [c4w_c1].map (fun c => c.email) ∧
      rec.participants.length = rec.participant_emails.length ∧
      ((∀ m ∈ c4w_st.meetings, m.id ≠ "mtg_1") →
        get_meeting (execute_scheduling c4w_pending [c4w_c1] c4w_st {} "" "mtg_1" "th_1"
          "now").store "mtg_1" = some rec)) ∧
    (∃ es, mergeAttendeesGo c4w_meeting.participants c4w_meeting.participant_emails
        (c4w_meeting.participant_emails.map pyLower)
        ((get_emails_for_contacts [c4w_c2]).zip ([c4w_c2].map fun c => c.name)) =
      (([c4w_c1] ++ es).map fun c => c.name, ([c4w_c1] ++ es).map fun c => c.email)) ∧
    removeKeepLists c4w_meeting.participants c4w_meeting.participant_emails ["john"] =
      (([c4w_c1].filter fun c => !(name_matches_any c.name ["john"])).map fun c => c.name,
       ([c4w_c1].filter fun c => !(name_matches_any c.name ["john"])).map fun c => c.email) :=
  ⟨c4_correspondence.1 c4w_pending [c4w_c1] c4w_st {} "" "mtg_1" "th_1" "now" 2025 3 10 10 0
     (by rfl) (by decide),
   c4_correspondence.2.1 c4w_meeting [c4w_c1] [c4w_c2] (by rfl) (by rfl) (by decide),
   c4_correspondence.2.2 c4w_meeting [c4w_c1] ["john"] (by rfl) (by rfl) (by decide)⟩
